import Mathlib

/-!
Verification development for the ai-finance-assistant repository.

The frontend modules `holdingsStore.ts`, `storage.ts`, `agentEngine.ts` and
`ChatInterface.tsx` are embedded shallowly: `localStorage` cells become
explicit `Stored` values (absent key, corrupt JSON, or a parsed value),
JavaScript numbers become `ℚ`, and each exported function becomes a Lean
function over those states.  The backend `LedgerStore` and
`ConversationStore` are not part of the source tree; where a claim depends
on them they are modelled from the specification text and marked as such.
-/

-- ── String helpers (JS `toLowerCase` / `toUpperCase` / `includes` on ASCII) ──

/-- Lower-cases every character, as JS `String.prototype.toLowerCase` does on
ASCII text. -/
def lowerStr (s : String) : String := ⟨s.data.map Char.toLower⟩

/-- Upper-cases every character, as JS `String.prototype.toUpperCase` does on
ASCII text. -/
def upperStr (s : String) : String := ⟨s.data.map Char.toUpper⟩

/-- Whether `needle` is an initial segment of `hay`. -/
def startsList : List Char → List Char → Bool
  | [], _ => true
  | _ :: _, [] => false
  | n :: ns, h :: hs => n == h && startsList ns hs

/-- Whether `needle` occurs contiguously inside `hay`. -/
def containsList (needle : List Char) : List Char → Bool
  | [] => needle.isEmpty
  | c :: hs => startsList needle (c :: hs) || containsList needle hs

/-- JS `hay.includes(needle)`. -/
def sContains (hay needle : String) : Bool := containsList needle.data hay.data

-- ── localStorage cells ───────────────────────────────────────────────────────

/-- One `localStorage` slot as seen through `JSON.parse` inside `try`/`catch`:
the key can be absent, hold unparseable text, or hold a value of the expected
shape. -/
inductive Stored (α : Type) where
  | absent : Stored α
  | corrupt : Stored α
  | val : α → Stored α
deriving DecidableEq

-- ── Data model (`types.ts`, `holdingsStore.ts`) ──────────────────────────────

/-- `AgentType` from `types.ts`. -/
inductive AgentType where
  | advisor | analyst | tax_pro | portfolio | planner | news | stock | trader
deriving DecidableEq

/-- Frontend message role (`types.ts`). -/
inductive Role where
  | user | assistant
deriving DecidableEq

/-- `Message` from `types.ts`. -/
structure Message where
  id : String
  role : Role
  content : String
  agent : Option AgentType
  timestamp : Nat
deriving DecidableEq

/-- `ChatSession` from `types.ts`. -/
structure ChatSession where
  id : String
  title : String
  messages : List Message
  createdAt : Nat
  updatedAt : Nat
deriving DecidableEq

/-- `riskTolerance` values from `types.ts`. -/
inductive RiskTolerance where
  | conservative | moderate | aggressive
deriving DecidableEq

/-- `UserProfile` from `types.ts`. -/
structure UserProfile where
  isNewUser : Bool
  riskTolerance : Option RiskTolerance
  investmentGoals : List String
  completedOnboarding : Bool
deriving DecidableEq

/-- `Holding` from `holdingsStore.ts`. -/
structure Holding where
  ticker : String
  shares : ℚ
  avg_cost : ℚ
deriving DecidableEq

-- ── holdingsStore.ts ─────────────────────────────────────────────────────────

/-- `getHoldings`: `JSON.parse(localStorage.getItem(HOLDINGS_KEY) ?? '[]')`
inside `try`, returning `[]` from the `catch`. -/
def getHoldings : Stored (List Holding) → List Holding
  | .absent => []
  | .corrupt => []
  | .val l => l

/-- `saveHoldings`: overwrites the holdings key with the serialized list. -/
def saveHoldings (holdings : List Holding) : Stored (List Holding) :=
  .val holdings

/-- The merged entry written by `addHolding` when the ticker already exists. -/
def mergeHolding (prev h : Holding) : Holding :=
  let totalShares := prev.shares + h.shares
  { ticker := upperStr h.ticker
    shares := totalShares
    avg_cost := (prev.avg_cost * prev.shares + h.avg_cost * h.shares) / totalShares }

/-- Body of `addHolding`: `findIndex` on upper-cased tickers, then either the
in-place merge or a `push` of the upper-cased holding. -/
def addHoldingList (h : Holding) (existing : List Holding) : List Holding :=
  let idx := existing.findIdx (fun e => upperStr e.ticker == upperStr h.ticker)
  if hlt : idx < existing.length then
    existing.set idx (mergeHolding (existing.get ⟨idx, hlt⟩) h)
  else
    existing ++ [{ h with ticker := upperStr h.ticker }]

/-- `addHolding` from `holdingsStore.ts`. -/
def addHolding (h : Holding) (cell : Stored (List Holding)) : Stored (List Holding) :=
  saveHoldings (addHoldingList h (getHoldings cell))

/-- `removeHolding`: keeps every holding whose upper-cased ticker differs from
the upper-cased argument. -/
def removeHolding (ticker : String) (cell : Stored (List Holding)) : Stored (List Holding) :=
  saveHoldings ((getHoldings cell).filter (fun h => !(upperStr h.ticker == upperStr ticker)))

/-- `clearHoldings`: `localStorage.removeItem(HOLDINGS_KEY)`. -/
def clearHoldings (_cell : Stored (List Holding)) : Stored (List Holding) :=
  .absent

-- ── storage.ts ───────────────────────────────────────────────────────────────

/-- `getSessions`: parse with `?? '[]'` inside `try`, `[]` from `catch`. -/
def getSessions : Stored (List ChatSession) → List ChatSession
  | .absent => []
  | .corrupt => []
  | .val l => l

/-- `saveSessions`. -/
def saveSessions (sessions : List ChatSession) : Stored (List ChatSession) :=
  .val sessions

/-- `getSession`: `.find((s) => s.id === id) ?? null`. -/
def getSession (cell : Stored (List ChatSession)) (id : String) : Option ChatSession :=
  (getSessions cell).find? (fun s => s.id == id)

/-- The auto-title rule inside `appendMessage`: a session still called
"New conversation" takes its title from the first user message, truncated to
40 characters with an ellipsis. -/
def autoTitle (title : String) (m : Message) : String :=
  if title == "New conversation" && m.role == .user then
    if m.content.length > 40 then (⟨m.content.data.take 40⟩ : String) ++ "…" else m.content
  else title

/-- The in-place mutation `appendMessage` performs on the found session. -/
def appendTurnMsg (s : ChatSession) (m : Message) (now : Nat) : ChatSession :=
  { s with
    messages := s.messages ++ [m]
    updatedAt := now
    title := autoTitle s.title m }

/-- `appendMessage` from `storage.ts`: looks the session up by id; if it is
absent the function returns without writing anything, otherwise the message is
pushed and the session list saved. -/
def appendMessage (cell : Stored (List ChatSession)) (sessionId : String)
    (m : Message) (now : Nat) : Stored (List ChatSession) :=
  let sessions := getSessions cell
  let idx := sessions.findIdx (fun s => s.id == sessionId)
  if hlt : idx < sessions.length then
    saveSessions (sessions.set idx (appendTurnMsg (sessions.get ⟨idx, hlt⟩) m now))
  else
    cell

/-- `DEFAULT_PROFILE` from `storage.ts`. -/
def DEFAULT_PROFILE : UserProfile :=
  { isNewUser := true
    riskTolerance := none
    investmentGoals := []
    completedOnboarding := false }

/-- `getProfile`: `JSON.parse(... ?? 'null') ?? DEFAULT_PROFILE` inside `try`,
`DEFAULT_PROFILE` from `catch`. -/
def getProfile : Stored UserProfile → UserProfile
  | .absent => DEFAULT_PROFILE
  | .corrupt => DEFAULT_PROFILE
  | .val p => p

/-- `getBackendSessionId`: parses the map with `?? '{}'` inside `try` and
returns `map[frontendSessionId] ?? null`; the `catch` returns `null`. -/
def getBackendSessionId (cell : Stored (List (String × String)))
    (frontendSessionId : String) : Option String :=
  match cell with
  | .absent => none
  | .corrupt => none
  | .val m => (m.find? (fun p => p.1 == frontendSessionId)).map (fun p => p.2)

-- ── ChatInterface.tsx ────────────────────────────────────────────────────────

/-- The initial message list of `ChatInterface` (lines 65-67):
`getSession(sessionId)?.messages ?? []`. -/
def initialMessages (cell : Stored (List ChatSession)) (sessionId : String) : List Message :=
  match getSession cell sessionId with
  | some s => s.messages
  | none => []

/-- Shape of the backend `/ask` reply (`api.ts`). -/
structure AskResponse where
  question : String
  answer : String
  agent : String
  session_id : String
deriving DecidableEq

/-- `backendAgentToType` from `agentEngine.ts`. -/
def backendAgentToType (backendName : String) : AgentType :=
  (([("finance_qa_agent", AgentType.advisor),
     ("portfolio_analysis_agent", AgentType.portfolio),
     ("market_analysis_agent", AgentType.analyst),
     ("tax_education_agent", AgentType.tax_pro),
     ("goal_planning_agent", AgentType.planner),
     ("news_synthesizer_agent", AgentType.news),
     ("stock_agent", AgentType.stock),
     ("trading_agent", AgentType.trader)].find?
      (fun p => p.1 == backendName)).map (fun p => p.2)).getD AgentType.advisor

/-- Persistence effect of `handleSend` (`ChatInterface.tsx` lines 104-169) on
the sessions cell: the user message is appended first; then, only when
`askQuestion` resolves (`res = some r`), the assistant message is appended.
When `askQuestion` rejects, the `catch` block records an error in component
state and appends nothing. -/
def handleSendSave (cell : Stored (List ChatSession)) (sessionId : String)
    (text : String) (uid : String) (t1 : Nat)
    (res : Option AskResponse) (aid : String) (t2 : Nat) : Stored (List ChatSession) :=
  let c1 := appendMessage cell sessionId ⟨uid, .user, text, none, t1⟩ t1
  match res with
  | some r =>
      appendMessage c1 sessionId
        ⟨aid, .assistant, r.answer, some (backendAgentToType r.agent), t2⟩ t2
  | none => c1

-- ── agentEngine.ts: keyword router ───────────────────────────────────────────

/-- `STOCK_KEYWORDS` from `agentEngine.ts`. -/
def STOCK_KEYWORDS : List String :=
  ["stock price", "trading at", "quote", "share price", "current price",
   "pe ratio", "p/e", "eps", "earnings per share", "price to earnings",
   "revenue", "margins", "debt to equity", "roe", "analyst target",
   "analyst rating", "analyst recommendation", "buy rating", "sell rating",
   "52-week", "52 week", "all time high", "year to date", "ytd return",
   "stock history", "stock chart", "candlestick"]

/-- `PORTFOLIO_KEYWORDS` from `agentEngine.ts`. -/
def PORTFOLIO_KEYWORDS : List String :=
  ["portfolio", "holdings", "allocation", "diversif", "rebalance",
   "my stocks", "my investments", "asset mix", "concentration",
   "review my", "analyse my", "analyze my", "my assets", "my holdings",
   "overweight", "underweight", "weighting"]

/-- `NEWS_KEYWORDS` from `agentEngine.ts`. -/
def NEWS_KEYWORDS : List String :=
  ["news", "article", "headline", "announcement", "press release",
   "latest", "breaking", "what happened", "summarize", "synthesize",
   "earnings report"]

/-- `TAX_KEYWORDS` from `agentEngine.ts`. -/
def TAX_KEYWORDS : List String :=
  ["tax", "irs", "deduction", "filing", "w-2", "1099", "refund",
   "withholding", "roth", "ira", "401k", "traditional ira", "tax bracket",
   "capital gains tax", "depreciation", "write off", "audit",
   "tax return", "tax credit", "estate tax"]

/-- `ANALYST_KEYWORDS` from `agentEngine.ts`. -/
def ANALYST_KEYWORDS : List String :=
  ["market", "stock", "price", "chart", "ticker", "aapl", "tsla", "spy",
   "nasdaq", "dow", "s&p", "etf", "index", "options", "earnings", "pe ratio",
   "technical", "bullish", "bearish", "volatility", "shares", "equity",
   "crypto", "bitcoin", "sector", "market trend", "market analysis"]

/-- `PLANNER_KEYWORDS` from `agentEngine.ts`. -/
def PLANNER_KEYWORDS : List String :=
  ["goal", "plan", "budget", "retire", "retirement", "emergency fund",
   "save", "saving", "debt", "mortgage", "college", "wealth", "target",
   "timeline", "financial plan", "how much should i", "financial goal"]

/-- `TRADING_KEYWORDS` from `agentEngine.ts`. -/
def TRADING_KEYWORDS : List String :=
  ["buy", "sell", "trade", "paper trade", "paper trading",
   "position", "positions", "my position", "my trade", "my trades",
   "execute", "place order", "order", "shares of",
   "p&l", "profit and loss", "unrealized", "realized gain"]

/-- The alternation tested next to `TICKER_RE` in `detectAgent`. -/
def PRICE_CONTEXT_WORDS : List String :=
  ["price", "trading", "worth", "hold", "overvalued", "undervalued",
   "target", "forecast", "up", "down"]

/-- JS `\w`: `[A-Za-z0-9_]`. -/
def isWordChar (c : Char) : Bool := c.isAlpha || c.isDigit || c == '_'

/-- A character the regex class `[A-Z]` accepts. -/
def isTickerChar (c : Char) : Bool := decide (c ≥ 'A') && decide (c ≤ 'Z')

/-- Whether `TICKER_RE` matches at the current position, given a word boundary
just before it: the maximal `[A-Z]` run here must have length 2 to 5 and be
followed by a word boundary. -/
def tickerRunOk (cs : List Char) : Bool :=
  let run := cs.takeWhile isTickerChar
  decide (2 ≤ run.length) && decide (run.length ≤ 5) &&
    (match cs.drop run.length with
     | [] => true
     | c :: _ => !isWordChar c)

/-- Scans the text for a `TICKER_RE` match; `prev` is the character before the
current position, used for the leading `\b`. -/
def tickerSearch : Option Char → List Char → Bool
  | _, [] => false
  | prev, c :: rest =>
    ((match prev with
      | none => true
      | some p => !isWordChar p) && tickerRunOk (c :: rest))
    || tickerSearch (some c) rest

/-- `TICKER_RE.test(message)`: `\b[A-Z]{2,5}\b` somewhere in the raw text. -/
def tickerRe (s : String) : Bool := tickerSearch none s.data

/-- `detectAgent` from `agentEngine.ts`: keyword lists checked in source
order, then the ticker-regex branch, with `advisor` as the final default. -/
def detectAgent (message : String) : AgentType :=
  let q := lowerStr message
  if TRADING_KEYWORDS.any (fun kw => sContains q kw) then .trader
  else if PORTFOLIO_KEYWORDS.any (fun kw => sContains q kw) then .portfolio
  else if NEWS_KEYWORDS.any (fun kw => sContains q kw) then .news
  else if STOCK_KEYWORDS.any (fun kw => sContains q kw) then .stock
  else if tickerRe message && PRICE_CONTEXT_WORDS.any (fun kw => sContains q kw) then .stock
  else if ANALYST_KEYWORDS.any (fun kw => sContains q kw) then .analyst
  else if TAX_KEYWORDS.any (fun kw => sContains q kw) then .tax_pro
  else if PLANNER_KEYWORDS.any (fun kw => sContains q kw) then .planner
  else .advisor

-- ── Spec-modelled backend LedgerStore ────────────────────────────────────────

/-- Trade actions of the backend ledger. -/
inductive TradeAction where
  | buy | sell
deriving DecidableEq

/-- Modelled from the spec: a `Trade` row of the backend LedgerStore (the
backend Python store is not part of the source tree). -/
structure Trade where
  id : Nat
  session_id : String
  ticker : String
  action : TradeAction
  shares : ℚ
  price : ℚ
  total_value : ℚ
  timestamp : Nat
deriving DecidableEq

/-- Modelled from the spec: a `Holding` row of the backend LedgerStore. -/
structure BHolding where
  session_id : String
  ticker : String
  shares : ℚ
  avg_cost : ℚ
deriving DecidableEq

/-- Modelled from the spec: the two tables owned by the backend LedgerStore. -/
structure LedgerState where
  holdings : List BHolding
  trades : List Trade
deriving DecidableEq

/-- The validation errors the spec assigns to the backend LedgerStore. -/
inductive LedgerError where
  | InsufficientSharesError | InvalidOrderError
deriving DecidableEq

/-- The unique row for `(session_id, ticker)`, if present. -/
def holdingFor (hs : List BHolding) (sid t : String) : Option BHolding :=
  hs.find? (fun h => h.session_id == sid && h.ticker == t)

/-- Shares currently held for `(session_id, ticker)`; `0` when no row exists. -/
def currentShares (st : LedgerState) (sid t : String) : ℚ :=
  ((holdingFor st.holdings sid t).map (fun h => h.shares)).getD 0

/-- Modelled from the spec: `apply_buy(session_id, ticker, shares, price)` of
the backend LedgerStore, which is not part of the source tree. Requires
`shares > 0` (else `InvalidOrderError`), recomputes the weighted-average cost
basis, upserts the Holding and appends a Trade row in one atomic step. -/
def apply_buy (st : LedgerState) (sid ticker : String) (shares price : ℚ)
    (now : Nat) : Except LedgerError (BHolding × LedgerState) :=
  if shares ≤ 0 then .error .InvalidOrderError
  else
    let t := upperStr ticker
    let old_shares := currentShares st sid t
    let old_avg := ((holdingFor st.holdings sid t).map (fun h => h.avg_cost)).getD 0
    let new_shares := old_shares + shares
    let new_avg := (old_shares * old_avg + shares * price) / new_shares
    let updated : BHolding := ⟨sid, t, new_shares, new_avg⟩
    let holdings2 :=
      match holdingFor st.holdings sid t with
      | some _ => st.holdings.map (fun h =>
          if h.session_id == sid && h.ticker == t then updated else h)
      | none => st.holdings ++ [updated]
    .ok (updated,
      { holdings := holdings2
        trades := st.trades ++
          [⟨st.trades.length, sid, t, .buy, shares, price, shares * price, now⟩] })

/-- Modelled from the spec: `apply_sell(session_id, ticker, shares, price)` of
the backend LedgerStore, which is not part of the source tree. Fails with
`InsufficientSharesError` when `shares > current_shares`; otherwise decrements
shares with `avg_cost` unchanged, deletes the row when shares reach zero, and
appends a Trade row; check and update are one atomic step. -/
def apply_sell (st : LedgerState) (sid ticker : String) (shares price : ℚ)
    (now : Nat) : Except LedgerError (BHolding × LedgerState) :=
  let t := upperStr ticker
  let cur := currentShares st sid t
  if shares > cur then .error .InsufficientSharesError
  else
    let avg := ((holdingFor st.holdings sid t).map (fun h => h.avg_cost)).getD 0
    let new_shares := cur - shares
    let result : BHolding := ⟨sid, t, new_shares, avg⟩
    let holdings2 :=
      if new_shares = 0 then
        st.holdings.filter (fun h => !(h.session_id == sid && h.ticker == t))
      else
        st.holdings.map (fun h =>
          if h.session_id == sid && h.ticker == t then result else h)
    .ok (result,
      { holdings := holdings2
        trades := st.trades ++
          [⟨st.trades.length, sid, t, .sell, shares, price, shares * price, now⟩] })

/-- The ledger state after `apply_buy`; a failed call leaves the store as it
was. -/
def buyState (st : LedgerState) (sid ticker : String) (shares price : ℚ)
    (now : Nat) : LedgerState :=
  match apply_buy st sid ticker shares price now with
  | .ok (_, st2) => st2
  | .error _ => st

/-- The ledger state after `apply_sell`; a failed call leaves the store as it
was. -/
def sellState (st : LedgerState) (sid ticker : String) (shares price : ℚ)
    (now : Nat) : LedgerState :=
  match apply_sell st sid ticker shares price now with
  | .ok (_, st2) => st2
  | .error _ => st

/-- Modelled from the spec: `clear_holdings(session_id)` of the backend
LedgerStore, which is not part of the source tree. Deletes every Holding row
of the session, returns the count removed, and leaves the Trade table
untouched. -/
def clear_holdings (st : LedgerState) (sid : String) : Nat × LedgerState :=
  ((st.holdings.filter (fun h => h.session_id == sid)).length,
   { holdings := st.holdings.filter (fun h => !(h.session_id == sid))
     trades := st.trades })

-- ── Spec-modelled backend ConversationStore ──────────────────────────────────

/-- Modelled from the spec: the message table of the backend
ConversationStore (not part of the source tree), as per-session message
contents in chronological order. -/
abbrev ConvStore := List (String × List String)

/-- The messages recorded for a session, if the session is known. -/
def convLookup (store : ConvStore) (sid : String) : Option (List String) :=
  (store.find? (fun p => p.1 == sid)).map (fun p => p.2)

/-- Modelled from the spec: `get_history(session_id, last_n)` of the backend
ConversationStore, which is not part of the source tree. Returns the most
recent `last_n` messages in chronological order, and an empty list for an
unknown session. -/
def get_history (store : ConvStore) (sid : String) (lastN : Nat) : List String :=
  match convLookup store sid with
  | none => []
  | some msgs => msgs.drop (msgs.length - lastN)

-- ── Operation sequences over the holdings store (for the store invariant) ──

/-- One mutation of the frontend holdings store. -/
inductive HoldingsOp where
  | add : Holding → HoldingsOp
  | remove : String → HoldingsOp
  | clear : HoldingsOp

/-- Runs one holdings-store operation. -/
def applyHoldingsOp (cell : Stored (List Holding)) : HoldingsOp → Stored (List Holding)
  | .add h => addHolding h cell
  | .remove t => removeHolding t cell
  | .clear => clearHoldings cell

/-- Runs a sequence of holdings-store operations from a given cell state. -/
def applyHoldingsOps (cell : Stored (List Holding)) : List HoldingsOp → Stored (List Holding)
  | [] => cell
  | op :: ops => applyHoldingsOps (applyHoldingsOp cell op) ops

/-- The part of the spec Holding invariant the frontend store keeps: tickers
are pairwise distinct and upper-case normalized. -/
def TickersNormalizedUnique (l : List Holding) : Prop :=
  (l.map (fun h => h.ticker)).Nodup ∧ ∀ h ∈ l, upperStr h.ticker = h.ticker

/-- Equality of `Except` results is decidable, so concrete ledger runs can be
checked by evaluation. -/
instance {ε α : Type} [DecidableEq ε] [DecidableEq α] : DecidableEq (Except ε α) := fun a b =>
  match a, b with
  | .error x, .error y =>
      if h : x = y then .isTrue (by rw [h]) else .isFalse (fun hh => h (by injection hh))
  | .error _, .ok _ => .isFalse (fun hh => Except.noConfusion hh)
  | .ok _, .error _ => .isFalse (fun hh => Except.noConfusion hh)
  | .ok x, .ok y =>
      if h : x = y then .isTrue (by rw [h]) else .isFalse (fun hh => h (by injection hh))

-- ── Helper lemmas ────────────────────────────────────────────────────────────

theorem char_toNat_ofNat_valid (m : Nat) (h : m.isValidChar) : (Char.ofNat m).toNat = m := by
  simp only [Char.ofNat, dif_pos h, Char.ofNatAux, Char.toNat]
  rfl

theorem toUpper_idem (c : Char) : c.toUpper.toUpper = c.toUpper := by
  unfold Char.toUpper
  by_cases h : c.toNat ≥ 97 ∧ c.toNat ≤ 122
  · rw [if_pos h]
    have hv : (c.toNat - 32).isValidChar := by
      left
      omega
    rw [if_neg]
    rw [char_toNat_ofNat_valid _ hv]
    omega
  · rw [if_neg h, if_neg h]

theorem upperStr_idem (s : String) : upperStr (upperStr s) = upperStr s := by
  simp [upperStr, List.map_map, Function.comp_def, toUpper_idem]

theorem findIdx_append_cons {α : Type} (p : α → Bool) (l1 l2 : List α) (x : α)
    (hx : p x = true) (h1 : ∀ y ∈ l1, p y = false) :
    List.findIdx p (l1 ++ x :: l2) = l1.length := by
  induction l1 with
  | nil => simp [List.findIdx_cons, hx]
  | cons a as ih =>
      have ha : p a = false := h1 a (by simp)
      simp [List.findIdx_cons, ha, ih (fun y hy => h1 y (by simp [hy]))]

theorem getElem_append_cons {α : Type} (l1 l2 : List α) (x : α)
    (h : l1.length < (l1 ++ x :: l2).length) :
    (l1 ++ x :: l2)[l1.length] = x := by
  induction l1 with
  | nil => rfl
  | cons a as ih =>
      simp only [List.cons_append, List.length_cons, List.getElem_cons_succ]
      exact ih (by simp)

theorem set_append_cons {α : Type} (l1 l2 : List α) (x v : α) :
    (l1 ++ x :: l2).set l1.length v = l1 ++ v :: l2 := by
  induction l1 with
  | nil => rfl
  | cons a as ih =>
      simp only [List.cons_append, List.length_cons, List.set_cons_succ]
      rw [ih]

theorem find?_append_cons {α : Type} (p : α → Bool) (l1 l2 : List α) (x : α)
    (hx : p x = true) (h1 : ∀ y ∈ l1, p y = false) :
    List.find? p (l1 ++ x :: l2) = some x := by
  rw [List.find?_append]
  have hn : List.find? p l1 = none := List.find?_eq_none.mpr (by
    intro y hy
    simp [h1 y hy])
  simp [hn, List.find?_cons, hx]

theorem set_getElem_self_eq {α : Type} (l : List α) (i : Nat) (h : i < l.length) :
    l.set i l[i] = l := by
  induction l generalizing i with
  | nil => simp at h
  | cons a as ih =>
      cases i with
      | zero => rfl
      | succ n =>
          simp only [List.getElem_cons_succ, List.set_cons_succ]
          rw [ih n (by simpa using h)]

theorem length_filter_add_length_filter_not {α : Type} (p : α → Bool) (l : List α) :
    (l.filter p).length + (l.filter (fun x => !(p x))).length = l.length := by
  induction l with
  | nil => rfl
  | cons a l ih =>
      by_cases h : p a <;> simp [List.filter_cons, h, ← ih] <;> omega

-- ── Claim theorems ───────────────────────────────────────────────────────────

/-- Claim C1: buying into an existing position recomputes the weighted-average
cost basis: with `old_shares` held at `old_avg_cost`, a buy of `shares > 0` at
`price` yields `old_shares + shares` shares at
`(old_shares*old_avg_cost + shares*price) / (old_shares + shares)`; in
particular buying 10 shares at 100 then 10 more at 200 yields 20 shares at
`avg_cost = 150`. -/
theorem C1_addHolding_weighted_average
    (l1 l2 : List Holding) (prev h : Holding)
    (hmatch : upperStr prev.ticker = upperStr h.ticker)
    (hbefore : ∀ e ∈ l1, upperStr e.ticker ≠ upperStr h.ticker)
    (hpos : 0 < h.shares) :
    addHolding h (Stored.val (l1 ++ prev :: l2)) =
      Stored.val (l1 ++
        { ticker := upperStr h.ticker
          shares := prev.shares + h.shares
          avg_cost := (prev.shares * prev.avg_cost + h.shares * h.avg_cost) /
            (prev.shares + h.shares) } :: l2) ∧
    addHolding ⟨"AAPL", 10, 200⟩ (addHolding ⟨"AAPL", 10, 100⟩ (Stored.val [])) =
      Stored.val [⟨"AAPL", 20, 150⟩] := by
  have hgen : ∀ (m1 m2 : List Holding) (pv hh : Holding),
      upperStr pv.ticker = upperStr hh.ticker →
      (∀ e ∈ m1, upperStr e.ticker ≠ upperStr hh.ticker) →
      addHolding hh (Stored.val (m1 ++ pv :: m2)) =
        Stored.val (m1 ++
          { ticker := upperStr hh.ticker
            shares := pv.shares + hh.shares
            avg_cost := (pv.shares * pv.avg_cost + hh.shares * hh.avg_cost) /
              (pv.shares + hh.shares) } :: m2) := by
    intro m1 m2 pv hh hm hb
    have hfi : (m1 ++ pv :: m2).findIdx (fun e => upperStr e.ticker == upperStr hh.ticker)
        = m1.length :=
      findIdx_append_cons _ _ _ _ (by simp [hm]) (fun y hy => by simp [hb y hy])
    have hlt : m1.length < (m1 ++ pv :: m2).length := by simp
    simp only [addHolding, getHoldings, addHoldingList, hfi, saveHoldings, dif_pos hlt]
    congr 1
    rw [List.get_eq_getElem, getElem_append_cons _ _ _ hlt, set_append_cons]
    congr 1
    have hnum : pv.avg_cost * pv.shares + hh.avg_cost * hh.shares
        = pv.shares * pv.avg_cost + hh.shares * hh.avg_cost := by ring
    simp [mergeHolding, hnum]
  refine ⟨hgen l1 l2 prev h hmatch hbefore, ?_⟩
  have h1 : addHolding ⟨"AAPL", 10, 100⟩ (Stored.val []) = Stored.val [⟨"AAPL", 10, 100⟩] := by
    decide
  rw [h1]
  have h2 := hgen [] [] ⟨"AAPL", 10, 100⟩ ⟨"AAPL", 10, 200⟩ rfl (by simp)
  simp only [List.nil_append] at h2
  rw [h2]
  simp only [Stored.val.injEq, List.cons.injEq, and_true, Holding.mk.injEq]
  refine ⟨by decide, by norm_num, by norm_num⟩

theorem C1_witness :
    upperStr "AAPL" = upperStr "AAPL" ∧ (0 : ℚ) < 10 ∧
    addHolding ⟨"AAPL", 10, 200⟩ (Stored.val ([] ++ (⟨"AAPL", 10, 100⟩ : Holding) :: [])) =
      Stored.val ([] ++
        ({ ticker := upperStr "AAPL"
           shares := (10 : ℚ) + 10
           avg_cost := ((10 : ℚ) * 100 + 10 * 200) / (10 + 10) } : Holding) :: []) := by
  refine ⟨rfl, by norm_num, ?_⟩
  exact (C1_addHolding_weighted_average [] [] ⟨"AAPL", 10, 100⟩ ⟨"AAPL", 10, 200⟩ rfl
    (by simp) (by norm_num)).1

/-- Claim C3: a question matching a trading trigger phrase routes to the
trading specialist regardless of also matching the generic market list, because
`detectAgent` scans the keyword lists in a fixed priority order with the
domain-specific lists (trading, then portfolio) before the generic market list;
"should i buy this stock" matches both lists and routes to `trader`. -/
theorem C3_trading_priority :
    (∀ m : String,
      (∃ kw ∈ TRADING_KEYWORDS, sContains (lowerStr m) kw = true) →
      detectAgent m = .trader) ∧
    (∀ m : String,
      TRADING_KEYWORDS.any (fun kw => sContains (lowerStr m) kw) = false →
      (∃ kw ∈ PORTFOLIO_KEYWORDS, sContains (lowerStr m) kw = true) →
      detectAgent m = .portfolio) ∧
    detectAgent "should i buy this stock" = .trader ∧
    (∃ kw ∈ ANALYST_KEYWORDS, sContains (lowerStr "should i buy this stock") kw = true) := by
  refine ⟨?_, ?_, by decide, by decide⟩
  · intro m hm
    have hb : TRADING_KEYWORDS.any (fun kw => sContains (lowerStr m) kw) = true :=
      List.any_eq_true.mpr hm
    simp [detectAgent, hb]
  · intro m h0 hm
    have hb : PORTFOLIO_KEYWORDS.any (fun kw => sContains (lowerStr m) kw) = true :=
      List.any_eq_true.mpr hm
    simp [detectAgent, h0, hb]

theorem C3_witness :
    (∃ kw ∈ TRADING_KEYWORDS, sContains (lowerStr "should i buy this stock") kw = true) ∧
    detectAgent "should i buy this stock" = .trader :=
  ⟨by decide, C3_trading_priority.1 "should i buy this stock" (by decide)⟩

/-- Claim C6: when no trigger-phrase list matches and the ticker-symbol branch
does not apply, `detectAgent` falls through to the default general Q&A
specialist `advisor`. -/
theorem C6_default_advisor (m : String)
    (h1 : TRADING_KEYWORDS.any (fun kw => sContains (lowerStr m) kw) = false)
    (h2 : PORTFOLIO_KEYWORDS.any (fun kw => sContains (lowerStr m) kw) = false)
    (h3 : NEWS_KEYWORDS.any (fun kw => sContains (lowerStr m) kw) = false)
    (h4 : STOCK_KEYWORDS.any (fun kw => sContains (lowerStr m) kw) = false)
    (h5 : (tickerRe m && PRICE_CONTEXT_WORDS.any (fun kw => sContains (lowerStr m) kw)) = false)
    (h6 : ANALYST_KEYWORDS.any (fun kw => sContains (lowerStr m) kw) = false)
    (h7 : TAX_KEYWORDS.any (fun kw => sContains (lowerStr m) kw) = false)
    (h8 : PLANNER_KEYWORDS.any (fun kw => sContains (lowerStr m) kw) = false) :
    detectAgent m = .advisor := by
  simp [detectAgent, h1, h2, h3, h4, h5, h6, h7, h8]

theorem C6_witness :
    TRADING_KEYWORDS.any (fun kw => sContains (lowerStr "hello friend") kw) = false ∧
    detectAgent "hello friend" = .advisor :=
  ⟨by decide,
    C6_default_advisor "hello friend" (by decide) (by decide) (by decide) (by decide)
      (by decide) (by decide) (by decide) (by decide)⟩


theorem map_set_eq_of_eq {α β : Type} (f : α → β) (l : List α) (i : Nat) (v : α)
    (hlt : i < l.length) (hv : f v = f l[i]) :
    (l.set i v).map f = l.map f := by
  have hlt2 : i < (List.map f l).length := by simpa using hlt
  rw [List.map_set, hv, ← List.getElem_map f, set_getElem_self_eq _ _ hlt2]

theorem addHoldingList_preserves (h : Holding) (l : List Holding)
    (hl : TickersNormalizedUnique l) : TickersNormalizedUnique (addHoldingList h l) := by
  obtain ⟨hnd, hnorm⟩ := hl
  unfold addHoldingList
  by_cases hlt : l.findIdx (fun e => upperStr e.ticker == upperStr h.ticker) < l.length
  · rw [dif_pos hlt]
    have hp : (fun e => upperStr e.ticker == upperStr h.ticker)
        l[l.findIdx (fun e => upperStr e.ticker == upperStr h.ticker)] = true :=
      List.findIdx_getElem (w := hlt)
    have hup : upperStr (l[l.findIdx (fun e => upperStr e.ticker == upperStr h.ticker)]).ticker
        = upperStr h.ticker := by simpa using hp
    have hmem : l[l.findIdx (fun e => upperStr e.ticker == upperStr h.ticker)] ∈ l :=
      List.getElem_mem hlt
    have htk : (mergeHolding (l.get ⟨_, hlt⟩) h).ticker
        = (l[l.findIdx (fun e => upperStr e.ticker == upperStr h.ticker)]).ticker := by
      show upperStr h.ticker = _
      exact hup.symm.trans (hnorm _ hmem)
    constructor
    · rw [map_set_eq_of_eq _ _ _ _ hlt htk]
      exact hnd
    · intro x hx
      rcases List.mem_or_eq_of_mem_set hx with hx1 | hx2
      · exact hnorm x hx1
      · rw [hx2]
        rw [htk]
        exact hnorm _ hmem
  · rw [dif_neg hlt]
    have hlen : l.findIdx (fun e => upperStr e.ticker == upperStr h.ticker) = l.length :=
      Nat.le_antisymm (List.findIdx_le_length _) (Nat.le_of_not_lt hlt)
    have hall : ∀ x ∈ l, (upperStr x.ticker == upperStr h.ticker) = false :=
      List.findIdx_eq_length.mp hlen
    have hnotmem : upperStr h.ticker ∉ List.map (fun e => e.ticker) l := by
      intro hmem2
      rcases List.mem_map.mp hmem2 with ⟨x, hxl, hxa⟩
      have hxup : upperStr x.ticker = upperStr h.ticker := by
        rw [hnorm x hxl, hxa]
      have hfalse := hall x hxl
      rw [hxup] at hfalse
      simp at hfalse
    constructor
    · simp only [List.map_append, List.map_cons, List.map_nil]
      rw [List.nodup_append]
      refine ⟨hnd, List.nodup_singleton _, ?_⟩
      intro a ha hb
      rw [List.mem_singleton] at hb
      subst hb
      exact hnotmem ha
    · intro x hx
      rcases List.mem_append.mp hx with hx1 | hx2
      · exact hnorm x hx1
      · rw [List.mem_singleton] at hx2
        rw [hx2]
        exact upperStr_idem h.ticker

theorem filter_preserves_tnu (p : Holding → Bool) (l : List Holding)
    (hl : TickersNormalizedUnique l) : TickersNormalizedUnique (l.filter p) := by
  refine ⟨List.Nodup.sublist ((List.filter_sublist l).map (fun h => h.ticker)) hl.1, ?_⟩
  intro x hx
  exact hl.2 x (List.mem_filter.mp hx).1

theorem applyHoldingsOps_preserves (ops : List HoldingsOp) :
    ∀ cell, TickersNormalizedUnique (getHoldings cell) →
    TickersNormalizedUnique (getHoldings (applyHoldingsOps cell ops)) := by
  induction ops with
  | nil =>
      intro cell h
      exact h
  | cons op ops ih =>
      intro cell h
      refine ih _ ?_
      cases op with
      | add hh => exact addHoldingList_preserves hh _ h
      | remove t => exact filter_preserves_tnu _ _ h
      | clear => exact ⟨List.nodup_nil, fun x hx => absurd hx (List.not_mem_nil x)⟩

/-- Claim C5 (amended): starting from an empty store, every sequence of
`addHolding` / `removeHolding` / `clearHoldings` operations keeps the tickers
pairwise distinct (one Holding per ticker) and upper-case normalized; the
store has no session dimension, `addHolding` does not validate its input, and
a holding with `shares == 0` (or negative fields) is retained, not deleted. -/
theorem C5_holdings_invariant (ops : List HoldingsOp) :
    TickersNormalizedUnique (getHoldings (applyHoldingsOps Stored.absent ops)) :=
  applyHoldingsOps_preserves ops Stored.absent
    ⟨List.nodup_nil, fun x hx => absurd hx (List.not_mem_nil x)⟩

/-- Claim C5 counterexample: `addHolding` performs no validation, so a holding
with `shares == 0` is created and retained rather than deleted, and negative
shares are representable. -/
theorem C5_counterexample :
    applyHoldingsOps Stored.absent [HoldingsOp.add ⟨"x", 0, 5⟩] = Stored.val [⟨"X", 0, 5⟩] ∧
    applyHoldingsOps Stored.absent [HoldingsOp.add ⟨"y", -3, 2⟩] = Stored.val [⟨"Y", -3, 2⟩] := by
  constructor <;> decide

/-- Claim C8 (amended): saving a message for a session id that does not exist
is a silent no-op — `appendMessage` returns without creating a Session row and
the message is dropped; sessions are created separately by `createSession`. -/
theorem C8_append_unknown_session_noop (cell : Stored (List ChatSession)) (sid : String)
    (m : Message) (now : Nat)
    (h : ∀ s ∈ getSessions cell, s.id ≠ sid) :
    appendMessage cell sid m now = cell := by
  have hfi : (getSessions cell).findIdx (fun s => s.id == sid) = (getSessions cell).length :=
    List.findIdx_eq_length.mpr (fun s hs => by simp [h s hs])
  simp only [appendMessage, hfi]
  rw [dif_neg (lt_irrefl _)]

theorem C8_witness :
    (∀ s ∈ getSessions (Stored.val [⟨"a", "New conversation", [], 0, 0⟩]), s.id ≠ "b") ∧
    appendMessage (Stored.val [⟨"a", "New conversation", [], 0, 0⟩]) "b"
      ⟨"m1", .user, "hi", none, 5⟩ 5 = Stored.val [⟨"a", "New conversation", [], 0, 0⟩] :=
  ⟨by decide, C8_append_unknown_session_noop _ "b" _ 5 (by decide)⟩

/-- Claim C8 counterexample: appending a message for the unknown session id
"b" leaves storage unchanged — no Session row is created and the message is
dropped, contradicting the claim that the Session row is created so the turn
is persisted. -/
theorem C8_counterexample :
    appendMessage (Stored.val [⟨"a", "New conversation", [], 0, 0⟩]) "b"
      ⟨"m1", .user, "hi", none, 5⟩ 5 = Stored.val [⟨"a", "New conversation", [], 0, 0⟩] ∧
    getSession (appendMessage (Stored.val [⟨"a", "New conversation", [], 0, 0⟩]) "b"
      ⟨"m1", .user, "hi", none, 5⟩ 5) "b" = none := by
  constructor <;> decide

theorem getSessions_eq_saveSessions (cell : Stored (List ChatSession))
    (l1 : List ChatSession) (s : ChatSession) (l2 : List ChatSession)
    (h : getSessions cell = l1 ++ s :: l2) : cell = saveSessions (l1 ++ s :: l2) := by
  cases cell with
  | absent =>
      have hlen := congrArg List.length h
      simp [getSessions] at hlen
      omega
  | corrupt =>
      have hlen := congrArg List.length h
      simp [getSessions] at hlen
      omega
  | val v =>
      rw [getSessions] at h
      rw [h]
      rfl

theorem appendMessage_found (sid : String) (m : Message) (now : Nat)
    (l1 : List ChatSession) (s : ChatSession) (l2 : List ChatSession)
    (hid : s.id = sid) (hl1 : ∀ x ∈ l1, x.id ≠ sid) :
    appendMessage (saveSessions (l1 ++ s :: l2)) sid m now
      = saveSessions (l1 ++ appendTurnMsg s m now :: l2) := by
  have hfi : (l1 ++ s :: l2).findIdx (fun x => x.id == sid) = l1.length :=
    findIdx_append_cons _ _ _ _ (by simp [hid]) (fun y hy => by simp [hl1 y hy])
  have hlt : l1.length < (l1 ++ s :: l2).length := by simp
  simp only [appendMessage, saveSessions, getSessions, hfi]
  rw [dif_pos hlt]
  rw [List.get_eq_getElem, getElem_append_cons _ _ _ hlt, set_append_cons]

theorem initialMessages_found (l1 : List ChatSession) (s : ChatSession) (l2 : List ChatSession)
    (sid : String) (hid : s.id = sid) (hl1 : ∀ x ∈ l1, x.id ≠ sid) :
    initialMessages (saveSessions (l1 ++ s :: l2)) sid = s.messages := by
  simp only [initialMessages, getSession, saveSessions, getSessions]
  rw [find?_append_cons _ _ _ _ (by simp [hid]) (fun y hy => by simp [hl1 y hy])]

/-- Claim C4 (amended): when the backend call succeeds, a turn appends exactly
two Message rows — user then assistant — and the stored history returns them
in saved order (count +2); when the backend call fails, only the user message
is appended (count +1), so the two appends are not atomic and a user message
can be visible without its assistant message. -/
theorem C4_turn_persistence
    (cell : Stored (List ChatSession)) (sid text uid aid : String) (t1 t2 : Nat)
    (res : Option AskResponse)
    (l1 : List ChatSession) (s : ChatSession) (l2 : List ChatSession)
    (hcell : getSessions cell = l1 ++ s :: l2)
    (hid : s.id = sid)
    (hl1 : ∀ x ∈ l1, x.id ≠ sid) :
    (∀ r, res = some r →
      initialMessages (handleSendSave cell sid text uid t1 res aid t2) sid =
        s.messages ++ [⟨uid, .user, text, none, t1⟩,
          ⟨aid, .assistant, r.answer, some (backendAgentToType r.agent), t2⟩]) ∧
    (res = none →
      initialMessages (handleSendSave cell sid text uid t1 res aid t2) sid =
        s.messages ++ [⟨uid, .user, text, none, t1⟩]) := by
  have hcv : cell = saveSessions (l1 ++ s :: l2) :=
    getSessions_eq_saveSessions cell l1 s l2 hcell
  subst hcv
  have hid2 : (appendTurnMsg s ⟨uid, .user, text, none, t1⟩ t1).id = sid := hid
  constructor
  · intro r hr
    subst hr
    have hid3 : (appendTurnMsg (appendTurnMsg s ⟨uid, .user, text, none, t1⟩ t1)
        ⟨aid, .assistant, r.answer, some (backendAgentToType r.agent), t2⟩ t2).id = sid := hid
    simp only [handleSendSave]
    rw [appendMessage_found sid _ t1 l1 s l2 hid hl1]
    rw [appendMessage_found sid _ t2 l1 _ l2 hid2 hl1]
    rw [initialMessages_found l1 _ l2 sid hid3 hl1]
    simp [appendTurnMsg]
  · intro hr
    subst hr
    simp only [handleSendSave]
    rw [appendMessage_found sid _ t1 l1 s l2 hid hl1]
    rw [initialMessages_found l1 _ l2 sid hid2 hl1]
    simp [appendTurnMsg]

theorem C4_witness :
    (getSessions (Stored.val [⟨"a", "New conversation", [], 0, 0⟩]) =
      [] ++ (⟨"a", "New conversation", [], 0, 0⟩ : ChatSession) :: []) ∧
    initialMessages (handleSendSave (Stored.val [⟨"a", "New conversation", [], 0, 0⟩]) "a"
        "hi" "m1" 5 (some ⟨"hi", "ans", "trading_agent", "b1"⟩) "m2" 6) "a" =
      [] ++ [⟨"m1", .user, "hi", none, 5⟩,
        ⟨"m2", .assistant, "ans", some (backendAgentToType "trading_agent"), 6⟩] ∧
    initialMessages (handleSendSave (Stored.val [⟨"a", "New conversation", [], 0, 0⟩]) "a"
        "hi" "m1" 5 none "m2" 6) "a" = [] ++ [⟨"m1", .user, "hi", none, 5⟩] := by
  refine ⟨rfl, ?_, ?_⟩
  · exact (C4_turn_persistence (Stored.val [⟨"a", "New conversation", [], 0, 0⟩]) "a" "hi"
      "m1" "m2" 5 6 (some ⟨"hi", "ans", "trading_agent", "b1"⟩)
      [] ⟨"a", "New conversation", [], 0, 0⟩ [] rfl rfl (by simp)).1 _ rfl
  · exact (C4_turn_persistence (Stored.val [⟨"a", "New conversation", [], 0, 0⟩]) "a" "hi"
      "m1" "m2" 5 6 none
      [] ⟨"a", "New conversation", [], 0, 0⟩ [] rfl rfl (by simp)).2 rfl

/-- Claim C4 counterexample: with the backend call failing, a turn persists
exactly one Message row — the user message without its assistant counterpart —
so the count does not increase by 2 and "both are visible or neither is"
fails. -/
theorem C4_counterexample :
    initialMessages (handleSendSave (Stored.val [⟨"a", "New conversation", [], 0, 0⟩]) "a"
      "hi" "m1" 5 none "m2" 6) "a" = [⟨"m1", .user, "hi", none, 5⟩] ∧
    (initialMessages (handleSendSave (Stored.val [⟨"a", "New conversation", [], 0, 0⟩]) "a"
      "hi" "m1" 5 none "m2" 6) "a").length = 1 := by
  constructor <;> decide

/-- Claim C2: selling more shares than currently held fails with
`InsufficientSharesError` and leaves holdings unchanged; a successful sell
never changes `avg_cost`; concretely, `apply_buy(sid, AAPL, 10, 150)` followed
by `apply_sell(sid, AAPL, 15, 200)` fails and the holding stays at 10 shares
with `avg_cost = 150`. -/
theorem C2_apply_sell_insufficient :
    (∀ (st : LedgerState) (sid ticker : String) (shares price : ℚ) (now : Nat),
      currentShares st sid (upperStr ticker) < shares →
      apply_sell st sid ticker shares price now = .error .InsufficientSharesError ∧
      sellState st sid ticker shares price now = st) ∧
    (∀ (st : LedgerState) (sid ticker : String) (shares price : ℚ) (now : Nat)
        (h0 : BHolding),
      holdingFor st.holdings sid (upperStr ticker) = some h0 →
      shares ≤ h0.shares →
      (apply_sell st sid ticker shares price now).toOption.map (fun p => p.1.avg_cost)
        = some h0.avg_cost) ∧
    (buyState ⟨[], []⟩ "s1" "AAPL" 10 150 0).holdings = [⟨"s1", "AAPL", 10, 150⟩] ∧
    apply_sell (buyState ⟨[], []⟩ "s1" "AAPL" 10 150 0) "s1" "AAPL" 15 200 1
      = .error .InsufficientSharesError ∧
    sellState (buyState ⟨[], []⟩ "s1" "AAPL" 10 150 0) "s1" "AAPL" 15 200 1
      = buyState ⟨[], []⟩ "s1" "AAPL" 10 150 0 := by
  have hpart1 : ∀ (st : LedgerState) (sid ticker : String) (shares price : ℚ) (now : Nat),
      currentShares st sid (upperStr ticker) < shares →
      apply_sell st sid ticker shares price now = .error .InsufficientSharesError ∧
      sellState st sid ticker shares price now = st := by
    intro st sid ticker shares price now h
    have he : apply_sell st sid ticker shares price now = .error .InsufficientSharesError := by
      simp only [apply_sell]
      rw [if_pos h]
    refine ⟨he, ?_⟩
    simp only [sellState, he]
  have hbuy : apply_buy ⟨[], []⟩ "s1" "AAPL" 10 150 0
      = .ok (⟨"s1", "AAPL", 10, 150⟩,
          ⟨[⟨"s1", "AAPL", 10, 150⟩], [⟨0, "s1", "AAPL", .buy, 10, 150, 1500, 0⟩]⟩) := by
    have hu : upperStr "AAPL" = "AAPL" := by decide
    simp only [apply_buy, currentShares, holdingFor, hu]
    norm_num
  have hbst : buyState ⟨[], []⟩ "s1" "AAPL" 10 150 0
      = ⟨[⟨"s1", "AAPL", 10, 150⟩], [⟨0, "s1", "AAPL", .buy, 10, 150, 1500, 0⟩]⟩ := by
    simp only [buyState, hbuy]
  have hcur : currentShares ⟨[⟨"s1", "AAPL", 10, 150⟩],
      [⟨0, "s1", "AAPL", .buy, 10, 150, 1500, 0⟩]⟩ "s1" (upperStr "AAPL") < 15 := by decide
  have hc := hpart1 _ "s1" "AAPL" 15 200 1 hcur
  refine ⟨hpart1, ?_, ?_, ?_, ?_⟩
  · intro st sid ticker shares price now h0 hfound hle
    have hcs : currentShares st sid (upperStr ticker) = h0.shares := by
      simp [currentShares, hfound]
    simp only [apply_sell, hcs]
    rw [if_neg (not_lt.mpr hle)]
    simp [Except.toOption, hfound]
  · rw [hbst]
  · rw [hbst]
    exact hc.1
  · rw [hbst]
    exact hc.2

theorem C2_witness :
    currentShares ⟨[⟨"s1", "AAPL", 10, 150⟩], []⟩ "s1" (upperStr "AAPL") < 15 ∧
    apply_sell ⟨[⟨"s1", "AAPL", 10, 150⟩], []⟩ "s1" "AAPL" 15 200 1
      = .error .InsufficientSharesError ∧
    sellState ⟨[⟨"s1", "AAPL", 10, 150⟩], []⟩ "s1" "AAPL" 15 200 1
      = ⟨[⟨"s1", "AAPL", 10, 150⟩], []⟩ ∧
    (apply_sell ⟨[⟨"s1", "AAPL", 10, 150⟩], []⟩ "s1" "AAPL" 5 200 1).toOption.map
      (fun p => p.1.avg_cost) = some (150 : ℚ) := by
  have h1 := C2_apply_sell_insufficient.1 ⟨[⟨"s1", "AAPL", 10, 150⟩], []⟩ "s1" "AAPL"
    15 200 1 (by decide)
  have h2 := C2_apply_sell_insufficient.2.1 ⟨[⟨"s1", "AAPL", 10, 150⟩], []⟩ "s1" "AAPL"
    5 200 1 ⟨"s1", "AAPL", 10, 150⟩ (by decide) (by decide)
  exact ⟨by decide, h1.1, h1.2, h2⟩

/-- Claim C7: an unknown session id yields an empty history without any error:
the frontend loads `getSession(sessionId)?.messages ?? []`, which is `[]` when
no session matches, and the modelled backend `get_history` returns `[]` for an
unknown session and otherwise the most recent `last_n` messages as a suffix of
the chronological message list. -/
theorem C7_history_unknown_session :
    (∀ (cell : Stored (List ChatSession)) (sid : String),
      (∀ s ∈ getSessions cell, s.id ≠ sid) →
      getSession cell sid = none ∧ initialMessages cell sid = []) ∧
    (∀ (store : ConvStore) (sid : String) (n : Nat),
      convLookup store sid = none → get_history store sid n = []) ∧
    (∀ (store : ConvStore) (sid : String) (n : Nat) (msgs : List String),
      convLookup store sid = some msgs →
      get_history store sid n <:+ msgs ∧
      (get_history store sid n).length = min n msgs.length) := by
  refine ⟨?_, ?_, ?_⟩
  · intro cell sid h
    have hn : getSession cell sid = none :=
      List.find?_eq_none.mpr (fun s hs => by simp [h s hs])
    exact ⟨hn, by simp [initialMessages, hn]⟩
  · intro store sid n h
    simp [get_history, h]
  · intro store sid n msgs h
    refine ⟨?_, ?_⟩
    · simp only [get_history, h]
      exact List.drop_suffix _ _
    · simp only [get_history, h, List.length_drop]
      omega

theorem C7_witness :
    (∀ s ∈ getSessions (Stored.val [⟨"a", "New conversation", [], 0, 0⟩]), s.id ≠ "zz") ∧
    getSession (Stored.val [⟨"a", "New conversation", [], 0, 0⟩]) "zz" = none ∧
    initialMessages (Stored.val [⟨"a", "New conversation", [], 0, 0⟩]) "zz" = [] ∧
    get_history [("a", ["m1", "m2", "m3"])] "zz" 2 = [] ∧
    get_history [("a", ["m1", "m2", "m3"])] "a" 2 <:+ ["m1", "m2", "m3"] ∧
    (get_history [("a", ["m1", "m2", "m3"])] "a" 2).length = min 2 3 := by
  have h1 := C7_history_unknown_session.1 (Stored.val [⟨"a", "New conversation", [], 0, 0⟩])
    "zz" (by decide)
  have h2 := C7_history_unknown_session.2.1 [("a", ["m1", "m2", "m3"])] "zz" 2 (by decide)
  have h3 := C7_history_unknown_session.2.2 [("a", ["m1", "m2", "m3"])] "a" 2
    ["m1", "m2", "m3"] (by decide)
  exact ⟨by decide, h1.1, h1.2, h2, h3.1, h3.2⟩

/-- Claim C9: clearing holdings removes every Holding row and reports the
count removed while the Trade history is untouched: the frontend
`clearHoldings` empties the store, and the modelled backend `clear_holdings`
returns the number of rows removed for the session, keeps rows of other
sessions, and leaves `trades` unchanged. -/
theorem C9_clear_holdings_count :
    (∀ cell : Stored (List Holding), getHoldings (clearHoldings cell) = []) ∧
    (∀ (st : LedgerState) (sid : String),
      (clear_holdings st sid).2.trades = st.trades ∧
      (clear_holdings st sid).1 + ((clear_holdings st sid).2.holdings).length
        = st.holdings.length ∧
      (∀ h ∈ (clear_holdings st sid).2.holdings, h.session_id ≠ sid) ∧
      (∀ h ∈ st.holdings, h.session_id ≠ sid → h ∈ (clear_holdings st sid).2.holdings)) := by
  refine ⟨fun _ => rfl, ?_⟩
  intro st sid
  refine ⟨rfl, ?_, ?_, ?_⟩
  · exact length_filter_add_length_filter_not _ st.holdings
  · intro h hh
    have hb := (List.mem_filter.mp hh).2
    simpa using hb
  · intro h hh hne
    exact List.mem_filter.mpr ⟨hh, by simpa using hne⟩

theorem C9_witness :
    getHoldings (clearHoldings (Stored.val [⟨"AAPL", 10, 100⟩])) = [] ∧
    (clear_holdings ⟨[⟨"s1", "AAPL", 10, 150⟩, ⟨"s2", "TSLA", 5, 300⟩],
        [⟨0, "s1", "AAPL", .buy, 10, 150, 1500, 0⟩]⟩ "s1").2.trades
      = [⟨0, "s1", "AAPL", .buy, 10, 150, 1500, 0⟩] ∧
    (⟨"s2", "TSLA", 5, 300⟩ : BHolding) ∈
      (clear_holdings ⟨[⟨"s1", "AAPL", 10, 150⟩, ⟨"s2", "TSLA", 5, 300⟩],
        [⟨0, "s1", "AAPL", .buy, 10, 150, 1500, 0⟩]⟩ "s1").2.holdings := by
  refine ⟨C9_clear_holdings_count.1 _, ?_, ?_⟩
  · exact (C9_clear_holdings_count.2 ⟨[⟨"s1", "AAPL", 10, 150⟩, ⟨"s2", "TSLA", 5, 300⟩],
      [⟨0, "s1", "AAPL", .buy, 10, 150, 1500, 0⟩]⟩ "s1").1
  · exact (C9_clear_holdings_count.2 ⟨[⟨"s1", "AAPL", 10, 150⟩, ⟨"s2", "TSLA", 5, 300⟩],
      [⟨0, "s1", "AAPL", .buy, 10, 150, 1500, 0⟩]⟩ "s1").2.2.2 ⟨"s2", "TSLA", 5, 300⟩
      (by decide) (by decide)

/-- Claim C10: every read accessor over persistent browser storage is total:
on a missing key or corrupt JSON, `getHoldings` and `getSessions` return `[]`,
`getProfile` returns the default profile, and `getBackendSessionId` returns
`null` — each `catch` path produces the documented default instead of
throwing. -/
theorem C10_read_accessors_total :
    getHoldings Stored.absent = [] ∧ getHoldings Stored.corrupt = [] ∧
    getSessions Stored.absent = [] ∧ getSessions Stored.corrupt = [] ∧
    getProfile Stored.absent = DEFAULT_PROFILE ∧ getProfile Stored.corrupt = DEFAULT_PROFILE ∧
    (∀ fid : String, getBackendSessionId Stored.absent fid = none) ∧
    (∀ fid : String, getBackendSessionId Stored.corrupt fid = none) :=
  ⟨rfl, rfl, rfl, rfl, rfl, rfl, fun _ => rfl, fun _ => rfl⟩
